import Mathlib

/-!
# Verification of `currency_converter.py`

Shallow embedding of `src/py-project/currency_converter.py`, a small
currency-converter CLI: a hardcoded fallback rate table `FALLBACK_RATES`,
a rate provider `get_rates` that degrades to a re-normalized copy of the
fallback table on any fetch failure, and a pure converter `convert`.

Modelling conventions: Python floats are modelled as exact rationals (ℚ);
a Python `Dict[str, float]` as an association list `List (String × ℚ)`
(dict lookup via `List.lookup`, dict comprehension via `List.map`, dict
truthiness via emptiness); Python exceptions as `Except`; the outcome of
the live HTTP fetch, which the Python code observes only through the
try/except structure, as an explicit `FetchOutcome` argument.
-/

/-- A Python `Dict[str, float]` of exchange rates: an association list from
currency code to exact rational rate. -/
abbrev RateMapping := List (String × ℚ)

/-- Python `str.upper()`: uppercase every character of the string. -/
def py_upper (s : String) : String := ⟨s.data.map Char.toUpper⟩

/-- Lines 18–25: the hardcoded fallback table, keyed in USD base. -/
def FALLBACK_RATES : RateMapping :=
  [("USD", 1.0), ("EUR", 0.92), ("GBP", 0.79),
   ("JPY", 150.0), ("CAD", 1.36), ("AUD", 1.49)]

/-- The observable outcome of the live-fetch attempt inside `get_rates`:
`unavailable` is the `requests is None` case (the HTTP library failed to
load, lines 13–16 and 34); `fetchError` is any exception raised by
`requests.get`, `raise_for_status` or JSON decoding (lines 43–45);
`response r` is a successfully parsed JSON body, with `r = data.get('rates')`
(`none` when the `rates` field is missing, line 46). -/
inductive FetchOutcome where
  | unavailable : FetchOutcome
  | fetchError : FetchOutcome
  | response (rates : Option RateMapping) : FetchOutcome
deriving DecidableEq

/-- The live fetch failed or was skipped: every case except a parsed
response carrying a non-empty `rates` mapping. An empty mapping counts as
failure because of the `if not rates: raise ValueError` check on lines
47–48, whose exception is caught by the same `except` block. -/
def FetchOutcome.failed : FetchOutcome → Bool
  | .unavailable => true
  | .fetchError => true
  | .response none => true
  | .response (some rs) => rs.isEmpty

/-- Lines 34–39: the fallback normalization on the `requests is None` path.
`base` has already been uppercased (line 33). `FALLBACK_RATES['USD']` is a
direct dict access that cannot raise because USD is a key of the literal
table; it is embedded as a lookup with a default that is never taken. -/
def fallbackWhenNoRequests (base : String) : RateMapping :=
  let base_rate : ℚ :=
    match FALLBACK_RATES.lookup base with
    | some r => r
    | none => (FALLBACK_RATES.lookup "USD").getD 0
  FALLBACK_RATES.map fun kv => (kv.1, kv.2 / base_rate)

/-- Lines 50–54: the fallback normalization in the `except` handler. -/
def fallbackOnFetchError (base : String) : RateMapping :=
  let base_rate : ℚ :=
    match FALLBACK_RATES.lookup base with
    | some r => r
    | none => (FALLBACK_RATES.lookup "USD").getD 0
  FALLBACK_RATES.map fun kv => (kv.1, kv.2 / base_rate)

/-- Lines 27–54: `get_rates(base='USD')`. The network interaction is
abstracted as the `fetch` argument; every branch of the Python function is
represented: the missing-library path (line 34), the successful fetch with
a non-empty `rates` field (line 49), the empty-or-missing `rates` field
(lines 46–48, raising into the handler), and the exception handler
(lines 50–54). -/
def get_rates (fetch : FetchOutcome) (base : String := "USD") : RateMapping :=
  let base := py_upper base
  match fetch with
  | .unavailable => fallbackWhenNoRequests base
  | .fetchError => fallbackOnFetchError base
  | .response none => fallbackOnFetchError base
  | .response (some rates) =>
      if rates.isEmpty then fallbackOnFetchError base else rates

/-- The two ways `convert` can raise: the explicit
`ValueError("Unsupported currency: ...")` of lines 64–65, and Python's
`ZeroDivisionError` from `amount / rates[from_currency]` on line 68 when
the stored rate is exactly zero (Python float division by `0.0` raises). -/
inductive ConvError where
  | unsupportedCurrency (from_currency to_currency : String) : ConvError
  | zeroDivisionError : ConvError
deriving DecidableEq

/-- Lines 56–69: `convert(amount, from_currency, to_currency, rates)`.
Both codes are uppercased (lines 62–63), membership of both is checked
before any arithmetic (line 64), and the result is the two-hop product
`amount / rates[from_currency] * rates[to_currency]` (lines 68–69). The
explicit zero test mirrors Python raising `ZeroDivisionError` on the
division; in ℚ division by zero would silently return 0. -/
def convert (amount : ℚ) (from_currency to_currency : String)
    (rates : RateMapping) : Except ConvError ℚ :=
  let from_currency := py_upper from_currency
  let to_currency := py_upper to_currency
  match rates.lookup from_currency, rates.lookup to_currency with
  | some rf, some rt =>
      if rf = 0 then .error .zeroDivisionError
      else .ok (amount / rf * rt)
  | _, _ => .error (.unsupportedCurrency from_currency to_currency)

/-- The Rate Mapping data model of the spec (§3): every stored rate is a
positive number. -/
def ValidRateMapping (rates : RateMapping) : Prop := ∀ kv ∈ rates, 0 < kv.2

/-! ## Helper lemmas -/

/-- A successful lookup returns the second component of some stored pair. -/
lemma lookup_mem_snd {l : RateMapping} {k : String} {v : ℚ}
    (h : l.lookup k = some v) : ∃ p ∈ l, p.2 = v := by
  induction l with
  | nil => simp [List.lookup] at h
  | cons a l ih =>
    obtain ⟨k1, v1⟩ := a
    rw [List.lookup_cons] at h
    cases hk : k == k1 with
    | true =>
      rw [hk] at h; simp at h
      exact ⟨(k1, v1), by simp, h⟩
    | false =>
      rw [hk] at h
      obtain ⟨p, hp, hv⟩ := ih h
      exact ⟨p, by simp [hp], hv⟩

/-- In a valid rate mapping, every rate a lookup can return is positive. -/
lemma ValidRateMapping.lookup_pos {rates : RateMapping} {k : String} {v : ℚ}
    (hval : ValidRateMapping rates) (h : rates.lookup k = some v) : 0 < v := by
  obtain ⟨p, hp, hv⟩ := lookup_mem_snd h
  exact hv ▸ hval p hp

/-- The two textually duplicated fallback computations agree. -/
lemma fallbackWhenNoRequests_eq_onFetchError (base : String) :
    fallbackWhenNoRequests base = fallbackOnFetchError base := rfl

/-- On every failed fetch outcome, `get_rates` returns the re-normalized
fallback table. -/
lemma get_rates_of_failed {fetch : FetchOutcome} (base : String)
    (h : fetch.failed = true) :
    get_rates fetch base = fallbackOnFetchError (py_upper base) := by
  cases fetch with
  | unavailable => rfl
  | fetchError => rfl
  | response r =>
    cases r with
    | none => rfl
    | some rs =>
      simp only [FetchOutcome.failed] at h
      simp [get_rates, h]

/-- A successful lookup in the concrete fallback table is one of the six
literal entries. -/
lemma FALLBACK_RATES_lookup_cases {b : String} {r : ℚ}
    (h : FALLBACK_RATES.lookup b = some r) :
    (b = "USD" ∧ r = 1.0) ∨ (b = "EUR" ∧ r = 0.92) ∨ (b = "GBP" ∧ r = 0.79) ∨
    (b = "JPY" ∧ r = 150.0) ∨ (b = "CAD" ∧ r = 1.36) ∨ (b = "AUD" ∧ r = 1.49) := by
  simp only [FALLBACK_RATES, List.lookup] at h
  repeat' split at h
  all_goals simp_all

/-- Every rate stored in the fallback table is positive. -/
lemma FALLBACK_RATES_valid : ValidRateMapping FALLBACK_RATES := by
  intro kv hkv
  simp only [FALLBACK_RATES, List.mem_cons, List.not_mem_nil, or_false] at hkv
  rcases hkv with rfl | rfl | rfl | rfl | rfl | rfl <;> norm_num

/-- The normalization factor chosen by the fallback path is positive. -/
lemma fallback_base_rate_pos (base : String) :
    0 < (match FALLBACK_RATES.lookup base with
         | some r => r
         | none => (FALLBACK_RATES.lookup "USD").getD 0) := by
  cases h : FALLBACK_RATES.lookup base with
  | some r =>
    rcases FALLBACK_RATES_lookup_cases h with
      ⟨_, rfl⟩ | ⟨_, rfl⟩ | ⟨_, rfl⟩ | ⟨_, rfl⟩ | ⟨_, rfl⟩ | ⟨_, rfl⟩ <;> norm_num
  | none => norm_num [FALLBACK_RATES, List.lookup]

/-- Evaluation of `convert` when both codes resolve and the source rate is
nonzero. -/
lemma convert_eval (amount : ℚ) (f t : String) (rates : RateMapping)
    (rf rt : ℚ) (hf : rates.lookup (py_upper f) = some rf)
    (ht : rates.lookup (py_upper t) = some rt) (h0 : rf ≠ 0) :
    convert amount f t rates = .ok (amount / rf * rt) := by
  simp [convert, hf, ht, h0]

/-- Evaluation of `convert` when either code is absent from the mapping. -/
lemma convert_missing (amount : ℚ) (f t : String) (rates : RateMapping)
    (h : rates.lookup (py_upper f) = none ∨ rates.lookup (py_upper t) = none) :
    convert amount f t rates =
      .error (.unsupportedCurrency (py_upper f) (py_upper t)) := by
  rcases h with h | h
  · simp [convert, h]
  · cases hf : rates.lookup (py_upper f) with
    | none => simp [convert, hf]
    | some rf => simp [convert, hf, h]

/-- A two-entry demonstration mapping used by concrete witnesses. -/
def demoRates : RateMapping := [("USD", 1.0), ("EUR", 0.92)]

/-- The demonstration mapping satisfies the Rate Mapping data model. -/
lemma demoRates_valid : ValidRateMapping demoRates := by
  intro kv hkv
  simp only [demoRates, List.mem_cons, List.not_mem_nil, or_false] at hkv
  rcases hkv with rfl | rfl <;> norm_num

/-- C1: for every amount, currency strings and rate mapping (per the data
model, all rates positive) in which both uppercased codes are present,
`convert` returns exactly `(amount / rates[from.upper()]) * rates[to.upper()]`
— the two-hop conversion through the mapping's implicit base, with both
codes uppercased before lookup and no rounding applied. -/
theorem convert_two_hop (amount : ℚ) (f t : String) (rates : RateMapping)
    (rf rt : ℚ) (hval : ValidRateMapping rates)
    (hf : rates.lookup (py_upper f) = some rf)
    (ht : rates.lookup (py_upper t) = some rt) :
    convert amount f t rates = .ok (amount / rf * rt) :=
  convert_eval amount f t rates rf rt hf ht (hval.lookup_pos hf).ne'

/-- Witness for C1: converting 100 from usd to eur over the demonstration
mapping yields 100 / 1.0 * 0.92. -/
theorem convert_two_hop_witness :
    convert 100 "usd" "eur" demoRates = .ok (100 / 1.0 * 0.92) :=
  convert_two_hop 100 "usd" "eur" demoRates 1.0 0.92 demoRates_valid rfl rfl

/-- C2: over a rate mapping satisfying the data model, `convert` fails
exactly when one of the uppercased codes is absent from the mapping, and
the unsupported-currency error is the only error it ever signals — the
amount is never validated. -/
theorem convert_error_iff_unsupported (amount : ℚ) (f t : String)
    (rates : RateMapping) (hval : ValidRateMapping rates) :
    ((∃ e, convert amount f t rates = .error e) ↔
      rates.lookup (py_upper f) = none ∨ rates.lookup (py_upper t) = none) ∧
    ∀ e, convert amount f t rates = .error e →
      e = .unsupportedCurrency (py_upper f) (py_upper t) := by
  cases hf : rates.lookup (py_upper f) with
  | none =>
    rw [convert_missing amount f t rates (Or.inl hf)]
    exact ⟨⟨fun _ => Or.inl rfl, fun _ => ⟨_, rfl⟩⟩,
      fun e he => (Except.error.inj he).symm⟩
  | some rf =>
    cases ht : rates.lookup (py_upper t) with
    | none =>
      rw [convert_missing amount f t rates (Or.inr ht)]
      exact ⟨⟨fun _ => Or.inr rfl, fun _ => ⟨_, rfl⟩⟩,
        fun e he => (Except.error.inj he).symm⟩
    | some rt =>
      rw [convert_eval amount f t rates rf rt hf ht (hval.lookup_pos hf).ne']
      refine ⟨⟨?_, ?_⟩, ?_⟩
      · rintro ⟨e, he⟩
        exact absurd he (by simp)
      · rintro (h | h) <;> simp at h
      · intro e he
        exact absurd he (by simp)

/-- Witness for C2: over the fallback table, converting from ZZZ fails with
the unsupported-currency error and only with it. -/
theorem convert_error_iff_unsupported_witness :
    ((∃ e, convert 5 "ZZZ" "USD" FALLBACK_RATES = .error e) ↔
      FALLBACK_RATES.lookup (py_upper "ZZZ") = none ∨
        FALLBACK_RATES.lookup (py_upper "USD") = none) ∧
    ∀ e, convert 5 "ZZZ" "USD" FALLBACK_RATES = .error e →
      e = .unsupportedCurrency (py_upper "ZZZ") (py_upper "USD") :=
  convert_error_iff_unsupported 5 "ZZZ" "USD" FALLBACK_RATES FALLBACK_RATES_valid

/-- C5: the round-trip law, exact over the rational embedding: if
converting an amount from X to Y over a valid rate mapping succeeds with
value B, converting B back from Y to X returns the original amount. -/
theorem convert_round_trip (amount B : ℚ) (X Y : String)
    (rates : RateMapping) (hval : ValidRateMapping rates)
    (h1 : convert amount X Y rates = .ok B) :
    convert B Y X rates = .ok amount := by
  cases hx : rates.lookup (py_upper X) with
  | none => rw [convert_missing amount X Y rates (Or.inl hx)] at h1; exact absurd h1 (by simp)
  | some rx =>
    cases hy : rates.lookup (py_upper Y) with
    | none => rw [convert_missing amount X Y rates (Or.inr hy)] at h1; exact absurd h1 (by simp)
    | some ry =>
      have hxp := hval.lookup_pos hx
      have hyp := hval.lookup_pos hy
      rw [convert_eval amount X Y rates rx ry hx hy hxp.ne'] at h1
      rw [convert_eval B Y X rates ry rx hy hx hyp.ne']
      obtain rfl : amount / rx * ry = B := Except.ok.inj h1
      congr 1
      field_simp
      ring

/-- Witness for C5: 100 converted usd→eur and back eur→usd over the
demonstration mapping returns exactly 100. -/
theorem convert_round_trip_witness :
    convert (100 / 1.0 * 0.92) "eur" "usd" demoRates = .ok 100 :=
  convert_round_trip 100 (100 / 1.0 * 0.92) "usd" "eur" demoRates
    demoRates_valid
    (convert_eval 100 "usd" "eur" demoRates 1.0 0.92 rfl rfl (by norm_num))

/-- C6: identity — converting an amount to its own currency over a valid
rate mapping returns the amount unchanged, exactly. -/
theorem convert_identity (amount : ℚ) (X : String) (rates : RateMapping)
    (r : ℚ) (hval : ValidRateMapping rates)
    (hX : rates.lookup (py_upper X) = some r) :
    convert amount X X rates = .ok amount := by
  rw [convert_eval amount X X rates r r hX hX (hval.lookup_pos hX).ne']
  congr 1
  exact div_mul_cancel₀ amount (hval.lookup_pos hX).ne'

/-- Witness for C6: 7 JPY converted to JPY over the fallback table is 7. -/
theorem convert_identity_witness :
    convert 7 "JPY" "JPY" FALLBACK_RATES = .ok 7 :=
  convert_identity 7 "JPY" FALLBACK_RATES 150.0 FALLBACK_RATES_valid rfl

/-- C10: `convert` has no zero-guard on the division. Under the data-model
precondition that all rates are positive, the division is well-defined and
`convert` succeeds whenever both codes are present; but on a mapping that
stores rate 0 for the source code, `convert` signals the division-by-zero
error, which is distinct from the unsupported-currency error. -/
theorem convert_zero_rate_division :
    (∀ (amount : ℚ) (f t : String) (rates : RateMapping),
      ValidRateMapping rates →
      (rates.lookup (py_upper f)).isSome → (rates.lookup (py_upper t)).isSome →
      ∃ v, convert amount f t rates = .ok v) ∧
    convert 1 "USD" "EUR" [("USD", 0), ("EUR", 1)] =
      .error .zeroDivisionError ∧
    ConvError.zeroDivisionError ≠
      ConvError.unsupportedCurrency (py_upper "USD") (py_upper "EUR") := by
  refine ⟨?_, ?_, by simp⟩
  · intro amount f t rates hval hf ht
    obtain ⟨rf, hf⟩ := Option.isSome_iff_exists.mp hf
    obtain ⟨rt, ht⟩ := Option.isSome_iff_exists.mp ht
    exact ⟨amount / rf * rt,
      convert_eval amount f t rates rf rt hf ht (hval.lookup_pos hf).ne'⟩
  · have hu : py_upper "USD" = "USD" := by decide
    have he : py_upper "EUR" = "EUR" := by decide
    simp [convert, hu, he, List.lookup]

/-- A key the concrete fallback table resolves is already uppercase. -/
lemma FALLBACK_RATES_key_upper {b : String} {r : ℚ}
    (h : FALLBACK_RATES.lookup b = some r) : py_upper b = b := by
  rcases FALLBACK_RATES_lookup_cases h with
    ⟨rfl, _⟩ | ⟨rfl, _⟩ | ⟨rfl, _⟩ | ⟨rfl, _⟩ | ⟨rfl, _⟩ | ⟨rfl, _⟩ <;> decide

/-- C3: whenever the live fetch fails or is skipped, `get_rates` returns
the fallback table with every value divided by the normalization factor:
the factor is the table's entry for the uppercased base when present, and
otherwise defaults to USD's value 1.0, so that for a base absent from the
table the result is the raw fallback table itself. -/
theorem get_rates_fallback_normalization (fetch : FetchOutcome)
    (base : String) (h : fetch.failed = true) :
    (∀ f, FALLBACK_RATES.lookup (py_upper base) = some f →
      get_rates fetch base = FALLBACK_RATES.map fun kv => (kv.1, kv.2 / f)) ∧
    (FALLBACK_RATES.lookup (py_upper base) = none →
      get_rates fetch base = FALLBACK_RATES) := by
  rw [get_rates_of_failed base h]
  constructor
  · intro f hf
    simp only [fallbackOnFetchError, hf]
  · intro hnone
    simp only [fallbackOnFetchError, hnone]
    norm_num [FALLBACK_RATES, List.lookup]

/-- Witness for C3: with a failed fetch and the unrecognized base xxx, the
returned mapping is the raw fallback table. -/
theorem get_rates_fallback_normalization_witness :
    (∀ f, FALLBACK_RATES.lookup (py_upper "xxx") = some f →
      get_rates .fetchError "xxx" =
        FALLBACK_RATES.map fun kv => (kv.1, kv.2 / f)) ∧
    (FALLBACK_RATES.lookup (py_upper "xxx") = none →
      get_rates .fetchError "xxx" = FALLBACK_RATES) :=
  get_rates_fallback_normalization .fetchError "xxx" rfl

/-- C4: `get_rates` is a total function — no failure mode escapes it.
Every failed fetch outcome (library unavailable, network or HTTP or JSON
error, missing or empty rates field) yields the normalized fallback
mapping, and the only other outcome returns the fetched mapping. -/
theorem get_rates_never_fails (fetch : FetchOutcome) (base : String) :
    (fetch.failed = true →
      get_rates fetch base = fallbackOnFetchError (py_upper base)) ∧
    (fetch.failed = false →
      ∃ rs, fetch = .response (some rs) ∧ get_rates fetch base = rs) := by
  refine ⟨get_rates_of_failed base, ?_⟩
  intro h
  cases fetch with
  | unavailable => simp [FetchOutcome.failed] at h
  | fetchError => simp [FetchOutcome.failed] at h
  | response r =>
    cases r with
    | none => simp [FetchOutcome.failed] at h
    | some rs =>
      simp only [FetchOutcome.failed, List.isEmpty_iff] at h
      exact ⟨rs, rfl, by simp [get_rates, List.isEmpty_iff, h]⟩

/-- When the base resolves in the fallback table, the fallback path divides
every entry by the base's own table value. -/
lemma fallbackOnFetchError_of_lookup {b : String} {f : ℚ}
    (h : FALLBACK_RATES.lookup b = some f) :
    fallbackOnFetchError b = FALLBACK_RATES.map fun kv => (kv.1, kv.2 / f) := by
  simp only [fallbackOnFetchError, h]

/-- C7: for every base that is a key of the fallback table, the mapping
returned on a failed fetch gives that base the rate exactly 1. -/
theorem get_rates_fallback_base_is_one (fetch : FetchOutcome) (B : String)
    (r : ℚ) (hfail : fetch.failed = true)
    (hB : FALLBACK_RATES.lookup B = some r) :
    (get_rates fetch B).lookup B = some 1 := by
  rw [get_rates_of_failed B hfail, FALLBACK_RATES_key_upper hB,
    fallbackOnFetchError_of_lookup hB]
  rcases FALLBACK_RATES_lookup_cases hB with
    ⟨rfl, rfl⟩ | ⟨rfl, rfl⟩ | ⟨rfl, rfl⟩ | ⟨rfl, rfl⟩ | ⟨rfl, rfl⟩ | ⟨rfl, rfl⟩
  · show some ((1.0 : ℚ) / 1.0) = some 1
    norm_num
  · show some ((0.92 : ℚ) / 0.92) = some 1
    norm_num
  · show some ((0.79 : ℚ) / 0.79) = some 1
    norm_num
  · show some ((150.0 : ℚ) / 150.0) = some 1
    norm_num
  · show some ((1.36 : ℚ) / 1.36) = some 1
    norm_num
  · show some ((1.49 : ℚ) / 1.49) = some 1
    norm_num

/-- Witness for C7: on a failed fetch with base EUR, the returned mapping
rates EUR at exactly 1. -/
theorem get_rates_fallback_base_is_one_witness :
    (get_rates .fetchError "EUR").lookup "EUR" = some 1 :=
  get_rates_fallback_base_is_one .fetchError "EUR" 0.92 rfl rfl

/-- C8: the missing-library path and the failed-fetch path of `get_rates`
return identical mappings — both compute the same fallback normalization. -/
theorem get_rates_capability_paths_agree (base : String) :
    get_rates .unavailable base = get_rates .fetchError base ∧
    fallbackWhenNoRequests (py_upper base) =
      fallbackOnFetchError (py_upper base) :=
  ⟨rfl, rfl⟩

/-- C9: invariant of the fallback path — for every base, a failed fetch
returns a mapping whose keys are exactly USD, EUR, GBP, JPY, CAD, AUD in
the table's order, and all of whose rates are strictly positive, hence a
valid Rate Mapping usable by `convert`. -/
theorem get_rates_fallback_invariant (fetch : FetchOutcome) (base : String)
    (h : fetch.failed = true) :
    (get_rates fetch base).map Prod.fst =
      ["USD", "EUR", "GBP", "JPY", "CAD", "AUD"] ∧
    ValidRateMapping (get_rates fetch base) := by
  rw [get_rates_of_failed base h]
  constructor
  · simp [fallbackOnFetchError, FALLBACK_RATES]
  · intro kv hkv
    simp only [fallbackOnFetchError, List.mem_map] at hkv
    obtain ⟨p, hp, rfl⟩ := hkv
    exact div_pos (FALLBACK_RATES_valid p hp)
      (fallback_base_rate_pos (py_upper base))

/-- Witness for C9: on a failed fetch with base jpy, the returned mapping
has the six fallback keys and only positive rates. -/
theorem get_rates_fallback_invariant_witness :
    (get_rates .fetchError "jpy").map Prod.fst =
      ["USD", "EUR", "GBP", "JPY", "CAD", "AUD"] ∧
    ValidRateMapping (get_rates .fetchError "jpy") :=
  get_rates_fallback_invariant .fetchError "jpy" rfl
